import Mathlib

/-!
Shallow embedding of the edit/undo core of an in-memory JSON document
editor: the document buffer (`Document`), the change-notification channel
(`Subject.notify` over `Listener`s), the reversible insert/delete commands,
the command history manager (`CommandManager`) and the JSON validation
observer (`ValidatorObserver`).

Modelling conventions: text content is a `List Char`; Python integers are
`Int`; a method that can raise returns an `Except` value paired with the
(possibly updated) state, so that the state returned on the error path is
visible in the definition; the `notify` calls a document makes are recorded
in an `events` log on the document.  Wall-clock timestamp fields
(`created_time`, `modified_time`, validation timestamps) and the
display-only command description strings are not modelled; no claim
mentions them.
-/

set_option autoImplicit false

/-- Python whitespace as recognised by `str.strip()` (CPython's
`Py_UNICODE_ISSPACE`): the ASCII whitespace U+0009-000D and U+0020, the
control separators U+001C-001F, and the Unicode space, line and paragraph
separators U+0085, U+00A0, U+1680, U+2000-200A, U+2028, U+2029, U+202F,
U+205F and U+3000. -/
def pyIsSpace (c : Char) : Bool :=
  let n := c.toNat
  n == 0x09 || n == 0x0a || n == 0x0b || n == 0x0c || n == 0x0d ||
  n == 0x1c || n == 0x1d || n == 0x1e || n == 0x1f ||
  n == 0x20 || n == 0x85 || n == 0xa0 || n == 0x1680 ||
  n == 0x2000 || n == 0x2001 || n == 0x2002 || n == 0x2003 ||
  n == 0x2004 || n == 0x2005 || n == 0x2006 || n == 0x2007 ||
  n == 0x2008 || n == 0x2009 || n == 0x200a ||
  n == 0x2028 || n == 0x2029 || n == 0x202f || n == 0x205f || n == 0x3000

/-- Python `str.strip()` on a character list. -/
def pyStrip (s : List Char) : List Char :=
  ((s.dropWhile pyIsSpace).reverse.dropWhile pyIsSpace).reverse

/-- Exceptions raised by `Document` methods: `RuntimeError` on a read-only
document or on `reset` of a file-backed document, `ValueError` on an
invalid insert position or delete/get-text range. -/
inductive DocError
  | readOnlyError
  | invalidPosition (position : Int)
  | invalidRange (s e : Int)
  | cannotResetFileDocument
  deriving Repr, DecidableEq

/-- One entry of the `errors` list of a validation result, mirroring the
dicts built in `ValidatorObserver.validate`. -/
structure VError where
  line : Option Nat
  column : Option Nat
  message : String
  position : Option Nat
  deriving Repr, DecidableEq

/-- The validation verdict stored by `ValidatorObserver` and written back
onto the document via `set_validation_result`. -/
structure ValidationResult where
  is_valid : Bool
  message : String
  errors : List VError
  deriving Repr, DecidableEq

/-- The events a `Document` passes to `Subject.notify`, with their
payloads. -/
inductive DocEvent
  | contentChangedFull (oldContent newContent : List Char)
  | contentChangedInsert (position : Int) (text : List Char) (length : Nat)
  | contentChangedDelete (s e : Int) (deletedText : List Char) (length : Nat)
  | loadedEvent (filepath : String) (size : Nat)
  | savedEvent (filepath : Option String) (size : Nat)
  | resetEvent
  deriving Repr, DecidableEq

/-- The document buffer: content, backing-file identity, modified flag,
read-only flag, edit counter, last validation result and the log of
notifications it has emitted. -/
structure Document where
  filepath : Option String
  content : List Char
  modified : Bool
  readOnly : Bool
  editCount : Nat
  lastValidation : Option ValidationResult
  events : List DocEvent
  deriving Repr, DecidableEq

/-- `Document.__init__`. -/
def Document.new (filepath : Option String) (content : List Char) : Document :=
  { filepath := filepath, content := content, modified := false,
    readOnly := false, editCount := 0, lastValidation := none, events := [] }

/-- `Document.set_content`: full replace; raises on a read-only document,
otherwise updates content, modified flag and edit counter and (when `ntf`)
emits a full-replace `content_changed` event. -/
def Document.set_content (d : Document) (content : List Char) (ntf : Bool) :
    Except DocError Unit × Document :=
  if d.readOnly then (Except.error DocError.readOnlyError, d)
  else
    let oldContent := d.content
    let d1 := { d with content := content, modified := true,
                       editCount := d.editCount + 1 }
    let d2 := if ntf then
        { d1 with events :=
            d1.events ++ [DocEvent.contentChangedFull oldContent content] }
      else d1
    (Except.ok (), d2)

/-- `Document.insert`: raises on a read-only document, then on a position
outside `[0, length]`; otherwise splices the text in at the position. -/
def Document.insert (d : Document) (position : Int) (text : List Char)
    (ntf : Bool) : Except DocError Unit × Document :=
  if d.readOnly then (Except.error DocError.readOnlyError, d)
  else if position < 0 ∨ position > (d.content.length : Int) then
    (Except.error (DocError.invalidPosition position), d)
  else
    let d1 := { d with
      content := d.content.take position.toNat ++ text
                   ++ d.content.drop position.toNat,
      modified := true, editCount := d.editCount + 1 }
    let d2 := if ntf then
        { d1 with events := d1.events
            ++ [DocEvent.contentChangedInsert position text text.length] }
      else d1
    (Except.ok (), d2)

/-- `Document.delete`: raises on a read-only document, then on a range
violating `0 <= s <= e <= length`; otherwise removes the slice `[s, e)`. -/
def Document.delete (d : Document) (s e : Int) (ntf : Bool) :
    Except DocError Unit × Document :=
  if d.readOnly then (Except.error DocError.readOnlyError, d)
  else if s < 0 ∨ e > (d.content.length : Int) ∨ s > e then
    (Except.error (DocError.invalidRange s e), d)
  else
    let deletedText := (d.content.take e.toNat).drop s.toNat
    let d1 := { d with
      content := d.content.take s.toNat ++ d.content.drop e.toNat,
      modified := true, editCount := d.editCount + 1 }
    let d2 := if ntf then
        { d1 with events := d1.events
            ++ [DocEvent.contentChangedDelete s e deletedText
                  deletedText.length] }
      else d1
    (Except.ok (), d2)

/-- `Document.get_text`: pure read of the slice `[s, e)`, with the same
range validation as `delete` and no read-only check. -/
def Document.get_text (d : Document) (s e : Int) :
    Except DocError (List Char) :=
  if s < 0 ∨ e > (d.content.length : Int) ∨ s > e then
    Except.error (DocError.invalidRange s e)
  else
    Except.ok ((d.content.take e.toNat).drop s.toNat)

/-- `Document.load_from_file`: sets the filepath and content, clears the
modified flag and emits a `loaded` event.  It performs no read-only check
and does not touch the edit counter. -/
def Document.load_from_file (d : Document) (filepath : String)
    (content : List Char) : Document :=
  let d1 := { d with filepath := some filepath, content := content,
                     modified := false }
  { d1 with events := d1.events
      ++ [DocEvent.loadedEvent filepath content.length] }

/-- `Document.mark_as_saved`: optionally updates the filepath (a Python
truthiness test, so an empty string is ignored), clears the modified flag
and emits a `saved` event.  No read-only check. -/
def Document.mark_as_saved (d : Document) (filepath : Option String) :
    Document :=
  let d1 := match filepath with
    | some fp => if fp.length = 0 then d else { d with filepath := some fp }
    | none => d
  let d2 := { d1 with modified := false }
  { d2 with events := d2.events
      ++ [DocEvent.savedEvent d2.filepath d2.content.length] }

/-- `Document.set_validation_result`. -/
def Document.set_validation_result (d : Document) (r : ValidationResult) :
    Document :=
  { d with lastValidation := some r }

/-- `Document.clear`: `set_content("")`. -/
def Document.clear (d : Document) (ntf : Bool) :
    Except DocError Unit × Document :=
  d.set_content [] ntf

/-- `Document.reset`: raises on a file-backed document; otherwise empties
the content, clears the modified flag, sets the edit counter back to `0`,
drops the last validation result and emits a `reset` event.  No read-only
check. -/
def Document.reset (d : Document) : Except DocError Unit × Document :=
  match d.filepath with
  | some _ => (Except.error DocError.cannotResetFileDocument, d)
  | none =>
    let d1 := { d with content := [], modified := false, editCount := 0,
                       lastValidation := none }
    (Except.ok (), { d1 with events := d1.events ++ [DocEvent.resetEvent] })

/-- `InsertCommand` state: insert position, text and executed flag. -/
structure InsertCommand where
  position : Int
  text : List Char
  executed : Bool
  deriving Repr, DecidableEq

/-- `InsertCommand.__init__`. -/
def InsertCommand.new (position : Int) (text : List Char) : InsertCommand :=
  { position := position, text := text, executed := false }

/-- `InsertCommand.execute`: inserts the text; on success sets the executed
flag, on a raised document error returns `false` (the flag untouched). -/
def InsertCommand.execute (c : InsertCommand) (d : Document) :
    Bool × InsertCommand × Document :=
  match Document.insert d c.position c.text true with
  | (Except.ok _, d1) => (true, { c with executed := true }, d1)
  | (Except.error _, d1) => (false, c, d1)

/-- `InsertCommand.undo`: deletes `[position, position + len(text))`; on
success clears the executed flag. -/
def InsertCommand.undo (c : InsertCommand) (d : Document) :
    Bool × InsertCommand × Document :=
  match Document.delete d c.position (c.position + (c.text.length : Int))
      true with
  | (Except.ok _, d1) => (true, { c with executed := false }, d1)
  | (Except.error _, d1) => (false, c, d1)

/-- `DeleteCommand` state: range, the text captured at execute time for
undo (initially empty) and the executed flag. -/
structure DeleteCommand where
  startPosition : Int
  endPosition : Int
  deletedText : List Char
  executed : Bool
  deriving Repr, DecidableEq

/-- `DeleteCommand.__init__`. -/
def DeleteCommand.new (s e : Int) : DeleteCommand :=
  { startPosition := s, endPosition := e, deletedText := [],
    executed := false }

/-- `DeleteCommand.execute`: captures the target range via `get_text`, then
deletes it; the capture is kept even if the subsequent delete raises. -/
def DeleteCommand.execute (c : DeleteCommand) (d : Document) :
    Bool × DeleteCommand × Document :=
  match Document.get_text d c.startPosition c.endPosition with
  | Except.error _ => (false, c, d)
  | Except.ok txt =>
    let c1 := { c with deletedText := txt }
    match Document.delete d c.startPosition c.endPosition true with
    | (Except.ok _, d1) => (true, { c1 with executed := true }, d1)
    | (Except.error _, d1) => (false, c1, d1)

/-- `DeleteCommand.undo`: re-inserts the captured text at the original
start position. -/
def DeleteCommand.undo (c : DeleteCommand) (d : Document) :
    Bool × DeleteCommand × Document :=
  match Document.insert d c.startPosition c.deletedText true with
  | (Except.ok _, d1) => (true, { c with executed := false }, d1)
  | (Except.error _, d1) => (false, c, d1)

/-- The closed set of primitive commands the history manager stores. -/
inductive Cmd
  | insertCmd (c : InsertCommand)
  | deleteCmd (c : DeleteCommand)
  deriving Repr, DecidableEq

/-- Dynamic dispatch of `command.execute()`. -/
def Cmd.execute : Cmd → Document → Bool × Cmd × Document
  | Cmd.insertCmd c, d =>
    let r := InsertCommand.execute c d
    (r.1, Cmd.insertCmd r.2.1, r.2.2)
  | Cmd.deleteCmd c, d =>
    let r := DeleteCommand.execute c d
    (r.1, Cmd.deleteCmd r.2.1, r.2.2)

/-- Dynamic dispatch of `command.undo()`. -/
def Cmd.undo : Cmd → Document → Bool × Cmd × Document
  | Cmd.insertCmd c, d =>
    let r := InsertCommand.undo c d
    (r.1, Cmd.insertCmd r.2.1, r.2.2)
  | Cmd.deleteCmd c, d =>
    let r := DeleteCommand.undo c d
    (r.1, Cmd.deleteCmd r.2.1, r.2.2)

namespace Config

/-- `Config.MAX_UNDO_HISTORY`. -/
def maxUndoHistory : Nat := 100

end Config

/-- The history manager: ordered command list, cursor (`-1` means nothing
executed) and the configured maximum history length. -/
structure CommandManager where
  history : List Cmd
  currentIndex : Int
  maxHistory : Nat
  deriving Repr, DecidableEq

/-- `CommandManager.__init__`: `max_history or Config.MAX_UNDO_HISTORY` is
a Python truthiness test, so both `None` and `0` fall back to the
configured default. -/
def CommandManager.new (maxHistory : Option Nat) : CommandManager :=
  { history := [], currentIndex := -1,
    maxHistory := match maxHistory with
      | none => Config.maxUndoHistory
      | some 0 => Config.maxUndoHistory
      | some (n + 1) => n + 1 }

/-- `CommandManager.can_undo`. -/
def CommandManager.can_undo (m : CommandManager) : Bool :=
  m.currentIndex ≥ 0

/-- `CommandManager.can_redo`. -/
def CommandManager.can_redo (m : CommandManager) : Bool :=
  m.currentIndex < (m.history.length : Int) - 1

/-- `CommandManager.execute`: runs the command; on failure the history is
unchanged (the command and document still carry whatever the failed
execution left on them).  On success: truncate past the cursor, append,
advance the cursor, then evict the oldest entries if the configured
maximum is exceeded, shifting the cursor down by the eviction count. -/
def CommandManager.execute (m : CommandManager) (c : Cmd) (d : Document) :
    Bool × CommandManager × Cmd × Document :=
  let r := Cmd.execute c d
  if r.1 = false then (false, m, r.2.1, r.2.2)
  else
    let h1 :=
      if m.currentIndex < (m.history.length : Int) - 1 then
        m.history.take (m.currentIndex + 1).toNat
      else m.history
    let h2 := h1 ++ [r.2.1]
    let i2 := m.currentIndex + 1
    if h2.length > m.maxHistory then
      let removedCount := h2.length - m.maxHistory
      (true,
       { history := h2.drop removedCount,
         currentIndex := i2 - (removedCount : Int),
         maxHistory := m.maxHistory }, r.2.1, r.2.2)
    else
      (true,
       { history := h2, currentIndex := i2, maxHistory := m.maxHistory },
       r.2.1, r.2.2)

/-- `CommandManager.undo`: no-op returning `false` when nothing is
executed; otherwise undoes the command at the cursor, decrementing the
cursor only on success.  (The out-of-range lookup branch is unreachable
under the manager invariant.) -/
def CommandManager.undo (m : CommandManager) (d : Document) :
    Bool × CommandManager × Document :=
  if m.can_undo = false then (false, m, d)
  else
    match m.history.get? m.currentIndex.toNat with
    | none => (false, m, d)
    | some c =>
      let r := Cmd.undo c d
      let m1 := { m with history := m.history.set m.currentIndex.toNat r.2.1 }
      if r.1 then
        (true, { m1 with currentIndex := m.currentIndex - 1 }, r.2.2)
      else (false, m1, r.2.2)

/-- `CommandManager.redo`: no-op returning `false` when the cursor is at
the last entry; otherwise re-executes the command after the cursor,
incrementing the cursor only on success. -/
def CommandManager.redo (m : CommandManager) (d : Document) :
    Bool × CommandManager × Document :=
  if m.can_redo = false then (false, m, d)
  else
    match m.history.get? (m.currentIndex + 1).toNat with
    | none => (false, m, d)
    | some c =>
      let r := Cmd.execute c d
      let m1 := { m with
        history := m.history.set (m.currentIndex + 1).toNat r.2.1 }
      if r.1 then
        (true, { m1 with currentIndex := m.currentIndex + 1 }, r.2.2)
      else (false, m1, r.2.2)

/-- `CommandManager.clear_history`. -/
def CommandManager.clear_history (m : CommandManager) : CommandManager :=
  { m with history := [], currentIndex := -1 }

/-- The history-manager invariant: a positive configured maximum, a cursor
within `[-1, length(history) - 1]` and a history no longer than the
maximum. -/
def CommandManager.Inv (m : CommandManager) : Prop :=
  1 ≤ m.maxHistory ∧ -1 ≤ m.currentIndex ∧
    m.currentIndex ≤ (m.history.length : Int) - 1 ∧
    m.history.length ≤ m.maxHistory

instance (m : CommandManager) : Decidable m.Inv := by
  unfold CommandManager.Inv
  infer_instance

/-- A channel subscriber as `Subject.notify` sees it: an identity, the
enabled flag, and whether its `update` raises. -/
structure Listener where
  id : Nat
  enabled : Bool
  failsOnUpdate : Bool
  deriving Repr, DecidableEq

/-- The outcome of calling `update` on a listener. -/
def Listener.updateCall (l : Listener) : Except String Unit :=
  if l.failsOnUpdate then Except.error "observer raised" else Except.ok ()

/-- `Subject.notify`: walks the attached observers in order, calls `update`
on each enabled one inside a try/except that swallows its failure, and
returns the list of observers invoked. -/
def Subject.notify : List Listener → List Nat
  | [] => []
  | l :: rest =>
    if l.enabled then
      match l.updateCall with
      | Except.ok _ => l.id :: Subject.notify rest
      | Except.error _ => l.id :: Subject.notify rest
    else Subject.notify rest

/-- A buffer mutation with its synchronous notification: `insert` followed,
on success only, by delivery to the attached observers. -/
def Document.insertWithObservers (d : Document) (observers : List Listener)
    (position : Int) (text : List Char) :
    (Except DocError Unit × Document) × List Nat :=
  let r := Document.insert d position text true
  match r.1 with
  | Except.ok _ => (r, Subject.notify observers)
  | Except.error _ => (r, [])

/-- The outcome of the JSON-parse collaborator (`json.loads`) on a text:
success, a structured `JSONDecodeError`, or any other exception. -/
inductive ParseOutcome
  | parsed
  | decodeError (lineno colno : Nat) (msg : String) (pos : Nat)
  | otherError (msg : String)
  deriving Repr, DecidableEq

/-- `ValidatorObserver` state. -/
structure ValidatorObserver where
  autoValidate : Bool
  lastResult : Option ValidationResult
  validationCount : Nat
  deriving Repr, DecidableEq

/-- `ValidatorObserver.validate`, parametrised by the JSON-parse
collaborator: strips the buffer content; empty content is valid with an
informational message; otherwise the parse outcome decides the verdict,
a decode error carrying the parser's line/column/message/position.  The
result is stored on the observer and written back onto the document. -/
def ValidatorObserver.validate (parse : List Char → ParseOutcome)
    (v : ValidatorObserver) (d : Document) :
    ValidationResult × ValidatorObserver × Document :=
  let content := pyStrip d.content
  if content.isEmpty then
    let result : ValidationResult :=
      { is_valid := true, message := "Документ порожній", errors := [] }
    (result,
     { v with lastResult := some result,
              validationCount := v.validationCount + 1 },
     d.set_validation_result result)
  else
    let result : ValidationResult :=
      match parse content with
      | ParseOutcome.parsed =>
        { is_valid := true, message := "JSON синтаксис коректний",
          errors := [] }
      | ParseOutcome.decodeError lineno colno msg pos =>
        { is_valid := false,
          message := s!"Помилка JSON на рядку {lineno}, позиція {colno}",
          errors := [{ line := some lineno, column := some colno,
                       message := msg, position := some pos }] }
      | ParseOutcome.otherError msg =>
        { is_valid := false, message := s!"Помилка валідації: {msg}",
          errors := [{ line := none, column := none, message := msg,
                       position := none }] }
    (result,
     { v with lastResult := some result,
              validationCount := v.validationCount + 1 },
     d.set_validation_result result)

/-- `ValidatorObserver.update`: re-validates only on a live
`content_changed` event and only when auto-validation is on. -/
def ValidatorObserver.update (parse : List Char → ParseOutcome)
    (v : ValidatorObserver) (d : Document) (event_type : String) :
    ValidatorObserver × Document :=
  if event_type = "content_changed" ∧ v.autoValidate then
    let r := ValidatorObserver.validate parse v d
    (r.2.1, r.2.2)
  else (v, d)

/-- Concrete single-character insert commands used as fixtures for the
history-manager claims. -/
def cmdA : Cmd := Cmd.insertCmd (InsertCommand.new 0 ['a'])

/-- Second fixture command. -/
def cmdB : Cmd := Cmd.insertCmd (InsertCommand.new 1 ['b'])

/-- Third fixture command. -/
def cmdC : Cmd := Cmd.insertCmd (InsertCommand.new 2 ['c'])

/-- Fourth fixture command. -/
def cmdD : Cmd := Cmd.insertCmd (InsertCommand.new 0 ['d'])

/-- An empty writable document fixture. -/
def docE : Document := Document.new none []

/-- Raw execution chain of the three fixture commands on the empty
document. -/
def eA := Cmd.execute cmdA docE

/-- Second step of the raw execution chain. -/
def eB := Cmd.execute cmdB eA.2.2

/-- Third step of the raw execution chain. -/
def eC := Cmd.execute cmdC eB.2.2

/-- The bounded-history scenario: the three fixture inserts executed in
sequence from the empty document on a manager with maximum history 2. -/
def bhStep1 := (CommandManager.new (some 2)).execute cmdA docE

/-- Second execute of the bounded-history scenario. -/
def bhStep2 := bhStep1.2.1.execute cmdB bhStep1.2.2.2

/-- Third execute of the bounded-history scenario (triggers eviction). -/
def bhStep3 := bhStep2.2.1.execute cmdC bhStep2.2.2.2

/-- First undo of the bounded-history scenario. -/
def bhUndo1 := bhStep3.2.1.undo bhStep3.2.2.2

/-- Second undo of the bounded-history scenario. -/
def bhUndo2 := bhUndo1.2.1.undo bhUndo1.2.2

/-- A small writable document used as a concrete fixture. -/
def sampleDoc : Document := Document.new none ['a', 'b', 'c']

/-- A read-only document fixture. -/
def sampleReadOnlyDoc : Document :=
  { Document.new none ['a', 'b', 'c'] with readOnly := true }

theorem length_take_of_le {l : List Char} {n : Nat} (h : n ≤ l.length) :
    (l.take n).length = n := by
  simp [List.length_take, Nat.min_eq_left h]

theorem splice_take (l t : List Char) (n : Nat) (h : n ≤ l.length) :
    (l.take n ++ (t ++ l.drop n)).take n = l.take n :=
  List.take_left' (length_take_of_le h)

theorem splice_drop (l t : List Char) (n : Nat) (h : n ≤ l.length) :
    (l.take n ++ (t ++ l.drop n)).drop (n + t.length) = l.drop n := by
  rw [← List.append_assoc]
  refine List.drop_left' ?_
  simp [length_take_of_le h]

/-- A writable document accepts any insert position within bounds, and the
result is the splice together with the flag, counter and event updates. -/
theorem Document.insert_ok (d : Document) (pos : Int) (t : List Char)
    (hro : d.readOnly = false) (h0 : 0 ≤ pos)
    (hlen : pos ≤ (d.content.length : Int)) :
    d.insert pos t true =
      (Except.ok (),
       { d with
         content := d.content.take pos.toNat ++ t
                      ++ d.content.drop pos.toNat,
         modified := true, editCount := d.editCount + 1,
         events := d.events
           ++ [DocEvent.contentChangedInsert pos t t.length] }) := by
  have hc : ¬(pos < 0 ∨ pos > (d.content.length : Int)) := by omega
  simp [Document.insert, hro, hc]

/-- A writable document accepts any delete range within bounds, and the
result removes exactly the slice `[s, e)`. -/
theorem Document.delete_ok (d : Document) (s e : Int)
    (hro : d.readOnly = false) (h0 : 0 ≤ s) (hse : s ≤ e)
    (hel : e ≤ (d.content.length : Int)) :
    d.delete s e true =
      (Except.ok (),
       { d with
         content := d.content.take s.toNat ++ d.content.drop e.toNat,
         modified := true, editCount := d.editCount + 1,
         events := d.events
           ++ [DocEvent.contentChangedDelete s e
                 ((d.content.take e.toNat).drop s.toNat)
                 ((d.content.take e.toNat).drop s.toNat).length] }) := by
  have hc : ¬(s < 0 ∨ e > (d.content.length : Int) ∨ s > e) := by omega
  simp [Document.delete, hro, hc]

/-- `get_text` succeeds on any range within bounds and returns the slice. -/
theorem Document.get_text_ok (d : Document) (s e : Int)
    (h0 : 0 ≤ s) (hse : s ≤ e) (hel : e ≤ (d.content.length : Int)) :
    d.get_text s e = Except.ok ((d.content.take e.toNat).drop s.toNat) := by
  have hc : ¬(s < 0 ∨ e > (d.content.length : Int) ∨ s > e) := by omega
  simp [Document.get_text, hc]

/-- For any insert command (whatever its executed flag) on a writable
document with the position in bounds, `execute` succeeds and the
subsequent `undo` succeeds and restores the content exactly. -/
theorem insertCommand_undo_restores (ic : InsertCommand) (d : Document)
    (hro : d.readOnly = false) (h0 : 0 ≤ ic.position)
    (hlen : ic.position ≤ (d.content.length : Int)) :
    (InsertCommand.execute ic d).1 = true ∧
    (InsertCommand.undo (InsertCommand.execute ic d).2.1
       (InsertCommand.execute ic d).2.2).1 = true ∧
    (InsertCommand.undo (InsertCommand.execute ic d).2.1
       (InsertCommand.execute ic d).2.2).2.2.content
      = d.content := by
  have hnl : ic.position.toNat ≤ d.content.length := by omega
  have h1 := Document.insert_ok d ic.position ic.text hro h0 hlen
  have hexec : InsertCommand.execute ic d =
      (true, { position := ic.position, text := ic.text, executed := true },
       { d with
         content := d.content.take ic.position.toNat ++ ic.text
                      ++ d.content.drop ic.position.toNat,
         modified := true, editCount := d.editCount + 1,
         events := d.events
           ++ [DocEvent.contentChangedInsert ic.position ic.text
                 ic.text.length] }) := by
    simp [InsertCommand.execute, h1]
  rw [hexec]
  have h2 := Document.delete_ok
    ({ d with
       content := d.content.take ic.position.toNat ++ ic.text
                    ++ d.content.drop ic.position.toNat,
       modified := true, editCount := d.editCount + 1,
       events := d.events
         ++ [DocEvent.contentChangedInsert ic.position ic.text
               ic.text.length] } : Document)
    ic.position (ic.position + (ic.text.length : Int)) hro h0 (by omega)
    (by simp [List.length_append, length_take_of_le hnl]; omega)
  have htn : (ic.position + (ic.text.length : Int)).toNat
      = ic.position.toNat + ic.text.length := by
    omega
  simp only [List.append_assoc] at h2
  refine ⟨rfl, ?_, ?_⟩
  · simp [InsertCommand.undo, h2]
  · simp only [InsertCommand.undo, List.append_assoc, h2, htn]
    simp [splice_take _ _ _ hnl, splice_drop _ _ _ hnl,
      List.take_append_drop]

/-- C1: for every document with non-read-only content and every valid
insert position `0 ≤ pos ≤ length` and text `t`, `InsertCommand.execute`
succeeds, the subsequent `InsertCommand.undo` succeeds, and the document
content is restored exactly to the original. -/
theorem insert_then_undo_restores_content (d : Document) (pos : Int)
    (t : List Char) (hro : d.readOnly = false) (h0 : 0 ≤ pos)
    (hlen : pos ≤ (d.content.length : Int)) :
    ((InsertCommand.new pos t).execute d).1 = true ∧
    (InsertCommand.undo ((InsertCommand.new pos t).execute d).2.1
       ((InsertCommand.new pos t).execute d).2.2).1 = true ∧
    (InsertCommand.undo ((InsertCommand.new pos t).execute d).2.1
       ((InsertCommand.new pos t).execute d).2.2).2.2.content
      = d.content :=
  insertCommand_undo_restores (InsertCommand.new pos t) d hro h0 hlen

theorem unsplice (l : List Char) (s e : Nat) (hse : s ≤ e)
    (hel : e ≤ l.length) :
    l.take s ++ ((l.take e).drop s ++ l.drop e) = l := by
  have h1 : l.take s = (l.take e).take s := by
    rw [List.take_take, Nat.min_eq_left hse]
  rw [h1, ← List.append_assoc, List.take_append_drop, List.take_append_drop]

/-- For any delete command (whatever its initial captured text and
executed flag) on a writable document with the range in bounds, `execute`
succeeds and captures exactly the removed slice, and the subsequent `undo`
succeeds and restores the content exactly. -/
theorem deleteCommand_undo_restores (dc : DeleteCommand) (d : Document)
    (hro : d.readOnly = false) (h0 : 0 ≤ dc.startPosition)
    (hse : dc.startPosition ≤ dc.endPosition)
    (hel : dc.endPosition ≤ (d.content.length : Int)) :
    (DeleteCommand.execute dc d).1 = true ∧
    (DeleteCommand.execute dc d).2.1.deletedText
      = (d.content.take dc.endPosition.toNat).drop dc.startPosition.toNat ∧
    (DeleteCommand.undo (DeleteCommand.execute dc d).2.1
       (DeleteCommand.execute dc d).2.2).1 = true ∧
    (DeleteCommand.undo (DeleteCommand.execute dc d).2.1
       (DeleteCommand.execute dc d).2.2).2.2.content
      = d.content := by
  have hsl : dc.startPosition.toNat ≤ d.content.length := by omega
  have hel2 : dc.endPosition.toNat ≤ d.content.length := by omega
  have hse2 : dc.startPosition.toNat ≤ dc.endPosition.toNat := by omega
  have hget := Document.get_text_ok d dc.startPosition dc.endPosition h0
    hse hel
  have hdel := Document.delete_ok d dc.startPosition dc.endPosition hro h0
    hse hel
  have hexec : DeleteCommand.execute dc d =
      (true,
       { startPosition := dc.startPosition, endPosition := dc.endPosition,
         deletedText := (d.content.take dc.endPosition.toNat).drop
           dc.startPosition.toNat,
         executed := true },
       { d with
         content := d.content.take dc.startPosition.toNat
                      ++ d.content.drop dc.endPosition.toNat,
         modified := true, editCount := d.editCount + 1,
         events := d.events
           ++ [DocEvent.contentChangedDelete dc.startPosition
                 dc.endPosition
                 ((d.content.take dc.endPosition.toNat).drop
                   dc.startPosition.toNat)
                 ((d.content.take dc.endPosition.toNat).drop
                   dc.startPosition.toNat).length] }) := by
    simp [DeleteCommand.execute, hget, hdel]
  rw [hexec]
  have hins := Document.insert_ok
    ({ d with
       content := d.content.take dc.startPosition.toNat
                    ++ d.content.drop dc.endPosition.toNat,
       modified := true, editCount := d.editCount + 1,
       events := d.events
         ++ [DocEvent.contentChangedDelete dc.startPosition dc.endPosition
               ((d.content.take dc.endPosition.toNat).drop
                 dc.startPosition.toNat)
               ((d.content.take dc.endPosition.toNat).drop
                 dc.startPosition.toNat).length] } : Document)
    dc.startPosition
    ((d.content.take dc.endPosition.toNat).drop dc.startPosition.toNat)
    hro h0
    (by simp [List.length_append, length_take_of_le hsl]; omega)
  have htake :
      (d.content.take dc.startPosition.toNat
          ++ d.content.drop dc.endPosition.toNat).take
        dc.startPosition.toNat
        = d.content.take dc.startPosition.toNat :=
    List.take_left' (length_take_of_le hsl)
  have hdrop :
      (d.content.take dc.startPosition.toNat
          ++ d.content.drop dc.endPosition.toNat).drop
        dc.startPosition.toNat
        = d.content.drop dc.endPosition.toNat :=
    List.drop_left' (length_take_of_le hsl)
  simp only [List.append_assoc, List.length_drop, List.length_take] at hins
  refine ⟨rfl, rfl, ?_, ?_⟩
  · simp [DeleteCommand.undo, List.length_drop, List.length_take, hins]
  · simp only [DeleteCommand.undo, List.append_assoc, List.length_drop,
      List.length_take, hins, htake, hdrop]
    exact unsplice d.content dc.startPosition.toNat dc.endPosition.toNat
      hse2 hel2

/-- C2: for every document with non-read-only content and every valid range
`0 ≤ s ≤ e ≤ length`, `DeleteCommand.execute` succeeds and captures exactly
the removed slice, and the subsequent `DeleteCommand.undo` succeeds and
restores the document content exactly, by re-inserting that slice at the
original start position. -/
theorem delete_then_undo_restores_content (d : Document) (s e : Int)
    (hro : d.readOnly = false) (h0 : 0 ≤ s) (hse : s ≤ e)
    (hel : e ≤ (d.content.length : Int)) :
    ((DeleteCommand.new s e).execute d).1 = true ∧
    ((DeleteCommand.new s e).execute d).2.1.deletedText
      = (d.content.take e.toNat).drop s.toNat ∧
    (DeleteCommand.undo ((DeleteCommand.new s e).execute d).2.1
       ((DeleteCommand.new s e).execute d).2.2).1 = true ∧
    (DeleteCommand.undo ((DeleteCommand.new s e).execute d).2.1
       ((DeleteCommand.new s e).execute d).2.2).2.2.content
      = d.content :=
  deleteCommand_undo_restores (DeleteCommand.new s e) d hro h0 hse hel

/-- Witness for the insert/undo inverse law at a concrete document. -/
theorem insert_then_undo_restores_content_witness :
    sampleDoc.readOnly = false ∧ (0 : Int) ≤ 1 ∧
    (1 : Int) ≤ (sampleDoc.content.length : Int) ∧
    (((InsertCommand.new 1 ['x', 'y']).execute sampleDoc).1 = true ∧
     (InsertCommand.undo ((InsertCommand.new 1 ['x', 'y']).execute
          sampleDoc).2.1
        ((InsertCommand.new 1 ['x', 'y']).execute sampleDoc).2.2).1 = true ∧
     (InsertCommand.undo ((InsertCommand.new 1 ['x', 'y']).execute
          sampleDoc).2.1
        ((InsertCommand.new 1 ['x', 'y']).execute sampleDoc).2.2).2.2.content
       = sampleDoc.content) :=
  ⟨by decide, by decide, by decide,
   insert_then_undo_restores_content sampleDoc 1 ['x', 'y'] (by decide)
     (by decide) (by decide)⟩

/-- Witness for the delete/undo inverse law at a concrete document. -/
theorem delete_then_undo_restores_content_witness :
    sampleDoc.readOnly = false ∧ (0 : Int) ≤ 1 ∧ (1 : Int) ≤ 3 ∧
    (3 : Int) ≤ (sampleDoc.content.length : Int) ∧
    (((DeleteCommand.new 1 3).execute sampleDoc).1 = true ∧
     ((DeleteCommand.new 1 3).execute sampleDoc).2.1.deletedText
       = (sampleDoc.content.take (3 : Int).toNat).drop (1 : Int).toNat ∧
     (DeleteCommand.undo ((DeleteCommand.new 1 3).execute sampleDoc).2.1
        ((DeleteCommand.new 1 3).execute sampleDoc).2.2).1 = true ∧
     (DeleteCommand.undo ((DeleteCommand.new 1 3).execute sampleDoc).2.1
        ((DeleteCommand.new 1 3).execute sampleDoc).2.2).2.2.content
       = sampleDoc.content) :=
  ⟨by decide, by decide, by decide, by decide,
   delete_then_undo_restores_content sampleDoc 1 3 (by decide) (by decide)
     (by decide) (by decide)⟩

/-- C5 counterexample: on a read-only document the out-of-order range
`delete(5, 3)` raises the read-only error, not a range error, so the claim
"every range-violating call raises a range error" fails as stated for
read-only documents. -/
theorem invalid_range_on_read_only_raises_read_only :
    (sampleReadOnlyDoc.delete 5 3 true).1
        = Except.error DocError.readOnlyError ∧
    ¬((sampleReadOnlyDoc.delete 5 3 true).1
        = Except.error (DocError.invalidRange 5 3)) :=
  ⟨rfl, fun h => by
    rw [show (sampleReadOnlyDoc.delete 5 3 true).1
          = Except.error DocError.readOnlyError from rfl] at h
    exact absurd (Except.error.inj h) (by decide)⟩

/-- C5 (amended): every delete or get_text call whose range violates
`0 ≤ s ≤ e ≤ length`, and every insert call whose position is outside
`[0, length]`, fails and returns the document completely unchanged
(content, modified flag, edit counter and event log), so no listener is
notified; the raised error is the range error whenever the document is not
read-only (on a read-only document the read-only check fires first, for
delete and insert). -/
theorem invalid_range_rejected_without_mutation (d : Document)
    (s e pos : Int) (t : List Char) (ntf : Bool)
    (hrange : ¬(0 ≤ s ∧ s ≤ e ∧ e ≤ (d.content.length : Int)))
    (hpos : ¬(0 ≤ pos ∧ pos ≤ (d.content.length : Int))) :
    (d.delete s e ntf).2 = d ∧
    (∃ err, (d.delete s e ntf).1 = Except.error err) ∧
    (d.readOnly = false →
      (d.delete s e ntf).1 = Except.error (DocError.invalidRange s e)) ∧
    d.get_text s e = Except.error (DocError.invalidRange s e) ∧
    (d.insert pos t ntf).2 = d ∧
    (∃ err, (d.insert pos t ntf).1 = Except.error err) ∧
    (d.readOnly = false →
      (d.insert pos t ntf).1
        = Except.error (DocError.invalidPosition pos)) := by
  have hc : s < 0 ∨ e > (d.content.length : Int) ∨ s > e := by omega
  have hcp : pos < 0 ∨ pos > (d.content.length : Int) := by omega
  cases hro : d.readOnly <;>
    simp [Document.delete, Document.get_text, Document.insert, hc, hcp, hro]

/-- Witness for the amended range-rejection law at a concrete document. -/
theorem invalid_range_rejected_without_mutation_witness :
    (¬(0 ≤ (5 : Int) ∧ (5 : Int) ≤ 3
        ∧ (3 : Int) ≤ (sampleDoc.content.length : Int))) ∧
    (¬(0 ≤ (-1 : Int)
        ∧ (-1 : Int) ≤ (sampleDoc.content.length : Int))) ∧
    ((sampleDoc.delete 5 3 true).2 = sampleDoc ∧
     (∃ err, (sampleDoc.delete 5 3 true).1 = Except.error err) ∧
     (sampleDoc.readOnly = false →
       (sampleDoc.delete 5 3 true).1
         = Except.error (DocError.invalidRange 5 3)) ∧
     sampleDoc.get_text 5 3 = Except.error (DocError.invalidRange 5 3) ∧
     (sampleDoc.insert (-1) ['x'] true).2 = sampleDoc ∧
     (∃ err, (sampleDoc.insert (-1) ['x'] true).1 = Except.error err) ∧
     (sampleDoc.readOnly = false →
       (sampleDoc.insert (-1) ['x'] true).1
         = Except.error (DocError.invalidPosition (-1)))) :=
  ⟨by decide, by decide,
   invalid_range_rejected_without_mutation sampleDoc 5 3 (-1) ['x'] true
     (by decide) (by decide)⟩

/-- C6 counterexample: `load_from_file` on a read-only document performs no
read-only check — it replaces the content and emits a `loaded` event, so
the claim that every mutating operation fails on a read-only document is
false as stated. -/
theorem read_only_load_from_file_still_mutates :
    sampleReadOnlyDoc.readOnly = true ∧
    (sampleReadOnlyDoc.load_from_file "f.json" ['x']).content = ['x'] ∧
    (sampleReadOnlyDoc.load_from_file "f.json" ['x']).content
      ≠ sampleReadOnlyDoc.content ∧
    (sampleReadOnlyDoc.load_from_file "f.json" ['x']).events
      ≠ sampleReadOnlyDoc.events := by decide

/-- C6 (amended): on a read-only document, `insert`, `delete`,
`set_content` and `clear` fail with the read-only error without changing
any state or emitting any event; `load_from_file`, `mark_as_saved` and
`reset` perform no read-only check and proceed normally (`reset` is guarded
only by the document being file-backed). -/
theorem read_only_guards (d : Document) (pos s e : Int) (t c : List Char)
    (ntf : Bool) (fp : String) (fpo : Option String)
    (hro : d.readOnly = true) :
    (d.insert pos t ntf).1 = Except.error DocError.readOnlyError ∧
    (d.insert pos t ntf).2 = d ∧
    (d.delete s e ntf).1 = Except.error DocError.readOnlyError ∧
    (d.delete s e ntf).2 = d ∧
    (d.set_content c ntf).1 = Except.error DocError.readOnlyError ∧
    (d.set_content c ntf).2 = d ∧
    (d.clear ntf).1 = Except.error DocError.readOnlyError ∧
    (d.clear ntf).2 = d ∧
    (d.load_from_file fp c).content = c ∧
    (d.load_from_file fp c).events
      = d.events ++ [DocEvent.loadedEvent fp c.length] ∧
    (d.mark_as_saved fpo).modified = false ∧
    (d.mark_as_saved fpo).events
      = d.events ++ [DocEvent.savedEvent (d.mark_as_saved fpo).filepath
                       d.content.length] ∧
    (d.filepath = none → (d.reset).1 = Except.ok ()
      ∧ (d.reset).2.content = [] ∧ (d.reset).2.editCount = 0) := by
  refine ⟨by simp [Document.insert, hro], by simp [Document.insert, hro],
    by simp [Document.delete, hro], by simp [Document.delete, hro],
    by simp [Document.set_content, hro], by simp [Document.set_content, hro],
    by simp [Document.clear, Document.set_content, hro],
    by simp [Document.clear, Document.set_content, hro],
    by simp [Document.load_from_file], by simp [Document.load_from_file],
    ?_, ?_, fun hfp => by simp [Document.reset, hfp]⟩ <;>
  · cases fpo with
    | none => simp [Document.mark_as_saved]
    | some fp =>
      by_cases hfp : fp.length = 0 <;> simp [Document.mark_as_saved, hfp]

/-- Witness for the amended read-only guard law at a concrete document. -/
theorem read_only_guards_witness :
    sampleReadOnlyDoc.readOnly = true ∧
    (sampleReadOnlyDoc.insert 0 ['x'] true).1
      = Except.error DocError.readOnlyError ∧
    (sampleReadOnlyDoc.insert 0 ['x'] true).2 = sampleReadOnlyDoc :=
  ⟨by decide,
   (read_only_guards sampleReadOnlyDoc 0 0 1 ['x'] [] true "f" none
     (by decide)).1,
   (read_only_guards sampleReadOnlyDoc 0 0 1 ['x'] [] true "f" none
     (by decide)).2.1⟩

/-- C7 counterexample: after one successful insert the edit counter is 1;
`reset` then sets it back to 0, a strict decrease, so the counter is not
monotone across every sequence of document operations. -/
theorem edit_count_decreases_on_reset :
    (((Document.new none []).insert 0 ['a'] true).2).editCount = 1 ∧
    (((((Document.new none []).insert 0 ['a'] true).2).reset).2).editCount
      = 0 := by decide

/-- C7 (amended): the edit counter increments by exactly one on every
successful `insert`, `delete`, `set_content` and `clear` (so it also
increments on every undo, which is itself an insert or delete);
`load_from_file` and `mark_as_saved` leave it unchanged even though they
mutate the document; `reset` sets it back to `0`.  It is monotone except
across `reset`. -/
theorem edit_count_per_operation (d : Document) (pos s e : Int)
    (t c : List Char) (ntf : Bool) (fp : String) (fpo : Option String) :
    ((d.insert pos t ntf).1 = Except.ok () →
      (d.insert pos t ntf).2.editCount = d.editCount + 1) ∧
    ((d.delete s e ntf).1 = Except.ok () →
      (d.delete s e ntf).2.editCount = d.editCount + 1) ∧
    ((d.set_content c ntf).1 = Except.ok () →
      (d.set_content c ntf).2.editCount = d.editCount + 1) ∧
    ((d.clear ntf).1 = Except.ok () →
      (d.clear ntf).2.editCount = d.editCount + 1) ∧
    (d.load_from_file fp c).editCount = d.editCount ∧
    (d.mark_as_saved fpo).editCount = d.editCount ∧
    ((d.reset).1 = Except.ok () → (d.reset).2.editCount = 0) := by
  refine ⟨?_, ?_, ?_, ?_, ?_, ?_, ?_⟩
  · unfold Document.insert
    split_ifs <;> cases ntf <;> simp
  · unfold Document.delete
    split_ifs <;> cases ntf <;> simp
  · unfold Document.set_content
    split_ifs <;> cases ntf <;> simp
  · unfold Document.clear Document.set_content
    split_ifs <;> cases ntf <;> simp
  · simp [Document.load_from_file]
  · cases fpo with
    | none => simp [Document.mark_as_saved]
    | some fp2 =>
      by_cases hfp : fp2.length = 0 <;> simp [Document.mark_as_saved, hfp]
  · unfold Document.reset
    cases hf : d.filepath <;> simp

/-- Witness for the per-operation edit-counter law at a concrete insert. -/
theorem edit_count_per_operation_witness :
    ((Document.new none []).insert 0 ['a'] true).1 = Except.ok () ∧
    ((Document.new none []).insert 0 ['a'] true).2.editCount
      = (Document.new none []).editCount + 1 :=
  ⟨rfl,
   (edit_count_per_operation (Document.new none []) 0 0 0 ['a'] [] true
     "f" none).1 rfl⟩

/-- C8: `Subject.notify` invokes exactly the enabled attached listeners,
each once, in attachment order, regardless of which listeners raise — so a
raising listener does not stop delivery to later ones — and a mutation
that triggers a notification still completes and reports success whatever
the listeners do. -/
theorem notify_delivers_to_all_enabled (observers : List Listener)
    (d : Document) (pos : Int) (t : List Char) (hro : d.readOnly = false)
    (h0 : 0 ≤ pos) (hlen : pos ≤ (d.content.length : Int)) :
    Subject.notify observers
      = (observers.filter (fun l => l.enabled)).map (fun l => l.id) ∧
    (d.insertWithObservers observers pos t).1.1 = Except.ok () ∧
    (d.insertWithObservers observers pos t).2
      = (observers.filter (fun l => l.enabled)).map (fun l => l.id) := by
  have hnot : ∀ os : List Listener, Subject.notify os
      = (os.filter (fun l => l.enabled)).map (fun l => l.id) := by
    intro os
    induction os with
    | nil => rfl
    | cons l rest ih =>
      by_cases he : l.enabled <;>
        by_cases hf : l.failsOnUpdate <;>
          simp [Subject.notify, Listener.updateCall, he, hf, ih]
  have hins := Document.insert_ok d pos t hro h0 hlen
  refine ⟨hnot observers, ?_, ?_⟩ <;>
    simp [Document.insertWithObservers, hins, hnot observers]

/-- Witness for listener isolation: two enabled listeners, the first of
which raises; both are invoked in order and the insert still succeeds. -/
theorem notify_delivers_to_all_enabled_witness :
    sampleDoc.readOnly = false ∧ (0 : Int) ≤ 0 ∧
    (0 : Int) ≤ (sampleDoc.content.length : Int) ∧
    (Subject.notify [⟨1, true, true⟩, ⟨2, true, false⟩]
       = (([⟨1, true, true⟩, ⟨2, true, false⟩] : List Listener).filter
           (fun l => l.enabled)).map (fun l => l.id) ∧
     (sampleDoc.insertWithObservers [⟨1, true, true⟩, ⟨2, true, false⟩]
        0 ['x']).1.1 = Except.ok () ∧
     (sampleDoc.insertWithObservers [⟨1, true, true⟩, ⟨2, true, false⟩]
        0 ['x']).2
       = (([⟨1, true, true⟩, ⟨2, true, false⟩] : List Listener).filter
           (fun l => l.enabled)).map (fun l => l.id)) :=
  ⟨by decide, by decide, by decide,
   notify_delivers_to_all_enabled [⟨1, true, true⟩, ⟨2, true, false⟩]
     sampleDoc 0 ['x'] (by decide) (by decide) (by decide)⟩

/-- C9: a validation run works on the whole (stripped) current buffer
content: empty content yields a valid result with an informational
message; a JSON decode error yields an invalid result carrying the
parser's line, column and message; a successful parse yields a valid
result; and in every case the produced result overwrites the document's
stored last validation result. -/
theorem validate_cases (parse : List Char → ParseOutcome)
    (v : ValidatorObserver) (d : Document) :
    (pyStrip d.content = [] →
      (ValidatorObserver.validate parse v d).1.is_valid = true ∧
      (ValidatorObserver.validate parse v d).1.message ≠ "") ∧
    (pyStrip d.content ≠ [] →
      parse (pyStrip d.content) = ParseOutcome.parsed →
      (ValidatorObserver.validate parse v d).1.is_valid = true) ∧
    (∀ lin col msg p, pyStrip d.content ≠ [] →
      parse (pyStrip d.content) = ParseOutcome.decodeError lin col msg p →
      (ValidatorObserver.validate parse v d).1.is_valid = false ∧
      (ValidatorObserver.validate parse v d).1.errors
        = [{ line := some lin, column := some col, message := msg,
             position := some p }]) ∧
    (ValidatorObserver.validate parse v d).2.2.lastValidation
      = some (ValidatorObserver.validate parse v d).1 := by
  refine ⟨?_, ?_, ?_, ?_⟩
  · intro hemp
    refine ⟨by simp [ValidatorObserver.validate, hemp], ?_⟩
    simp [ValidatorObserver.validate, hemp]
  · intro hne hp
    simp [ValidatorObserver.validate, List.isEmpty_iff, hne, hp]
  · intro lin col msg p hne hp
    simp [ValidatorObserver.validate, List.isEmpty_iff, hne, hp]
  · by_cases hemp : pyStrip d.content = []
    · simp [ValidatorObserver.validate, hemp, Document.set_validation_result]
    · cases hp : parse (pyStrip d.content) <;>
        simp [ValidatorObserver.validate, List.isEmpty_iff, hemp, hp,
          Document.set_validation_result]

/-- Witness for the validation-case law: a parse that reports a decode
error at line 1, column 2 yields an invalid result carrying exactly those
coordinates. -/
theorem validate_cases_witness :
    pyStrip sampleDoc.content ≠ [] ∧
    ((ValidatorObserver.validate
        (fun _ => ParseOutcome.decodeError 1 2 "Expecting value" 1)
        ⟨true, none, 0⟩ sampleDoc).1.is_valid = false ∧
     (ValidatorObserver.validate
        (fun _ => ParseOutcome.decodeError 1 2 "Expecting value" 1)
        ⟨true, none, 0⟩ sampleDoc).1.errors
       = [{ line := some 1, column := some 2, message := "Expecting value",
            position := some 1 }]) :=
  ⟨by decide,
   (validate_cases (fun _ => ParseOutcome.decodeError 1 2 "Expecting value" 1)
     ⟨true, none, 0⟩ sampleDoc).2.2.1 1 2 "Expecting value" 1 (by decide)
     rfl⟩

/-- C10: for a manager constructed with maximum history at least 1, the
invariant `-1 ≤ current_index ≤ length(history) - 1` together with
`length(history) ≤ max_history` holds after construction and is preserved
by every `execute`, `undo`, `redo` and `clear_history` call, whatever the
success or failure of the individual commands involved. -/
theorem commandManager_invariant :
    (∀ n : Nat, 1 ≤ n → (CommandManager.new (some n)).Inv) ∧
    (∀ (m : CommandManager) (c : Cmd) (d : Document),
      m.Inv → ((m.execute c d).2.1).Inv) ∧
    (∀ (m : CommandManager) (d : Document),
      m.Inv → ((m.undo d).2.1).Inv) ∧
    (∀ (m : CommandManager) (d : Document),
      m.Inv → ((m.redo d).2.1).Inv) ∧
    (∀ m : CommandManager, m.Inv → m.clear_history.Inv) := by
  refine ⟨?_, ?_, ?_, ?_, ?_⟩
  · intro n hn
    cases n with
    | zero => omega
    | succ k =>
      simp [CommandManager.new, CommandManager.Inv]
  · intro m c d hInv
    obtain ⟨h1, h2, h3, h4⟩ := hInv
    simp only [CommandManager.execute]
    split_ifs with hfail htrunc hover hover2 <;>
      simp_all [CommandManager.Inv, List.length_append, List.length_take,
        List.length_drop] <;>
      omega
  · intro m d hInv
    obtain ⟨h1, h2, h3, h4⟩ := hInv
    simp only [CommandManager.undo]
    split_ifs with hcu
    · exact ⟨h1, h2, h3, h4⟩
    · simp only [CommandManager.can_undo, decide_eq_false_iff_not,
        not_le, not_lt] at hcu
      cases hget : m.history.get? m.currentIndex.toNat with
      | none => exact ⟨h1, h2, h3, h4⟩
      | some c =>
        dsimp only
        split_ifs with hok <;>
          simp_all [CommandManager.Inv, List.length_set] <;> omega
  · intro m d hInv
    obtain ⟨h1, h2, h3, h4⟩ := hInv
    simp only [CommandManager.redo]
    split_ifs with hcr
    · exact ⟨h1, h2, h3, h4⟩
    · simp only [CommandManager.can_redo, decide_eq_false_iff_not,
        not_le, not_lt] at hcr
      cases hget : m.history.get? (m.currentIndex + 1).toNat with
      | none => exact ⟨h1, h2, h3, h4⟩
      | some c =>
        dsimp only
        split_ifs with hok <;>
          simp_all [CommandManager.Inv, List.length_set] <;> omega
  · intro m hInv
    obtain ⟨h1, h2, h3, h4⟩ := hInv
    simp [CommandManager.clear_history, CommandManager.Inv]
    omega

/-- Witness for the manager invariant at a concrete manager, command and
document. -/
theorem commandManager_invariant_witness :
    (1 ≤ 2 ∧ (CommandManager.new (some 2)).Inv) ∧
    ((CommandManager.new (some 2)).execute cmdA docE).2.1.Inv :=
  ⟨⟨by decide, commandManager_invariant.1 2 (by decide)⟩,
   commandManager_invariant.2.1 (CommandManager.new (some 2)) cmdA docE
     (by decide)⟩

/-- C3: from a history `[A, B, C]` with the cursor at `C` (index 2) and
room for at least three entries, one successful `undo` followed by a
successful execution of a new command `D` discards `C` from the history:
the history is exactly the three commands `A`, `B`, `D` (the latter as
mutated by its execution), the cursor is at `D` (index 2), and `redo` is
unavailable — it returns `false`. -/
theorem history_truncation (A B C D : Cmd) (d : Document) (mh : Nat)
    (hmh : 3 ≤ mh)
    (hund : (Cmd.undo C d).1 = true)
    (hexe : (Cmd.execute D (Cmd.undo C d).2.2).1 = true) :
    (CommandManager.mk [A, B, C] 2 mh).undo d
      = (true, CommandManager.mk [A, B, (Cmd.undo C d).2.1] 1 mh,
         (Cmd.undo C d).2.2) ∧
    (CommandManager.mk [A, B, (Cmd.undo C d).2.1] 1 mh).execute D
        (Cmd.undo C d).2.2
      = (true,
         CommandManager.mk [A, B, (Cmd.execute D (Cmd.undo C d).2.2).2.1]
           2 mh,
         (Cmd.execute D (Cmd.undo C d).2.2).2.1,
         (Cmd.execute D (Cmd.undo C d).2.2).2.2) ∧
    (CommandManager.mk [A, B, (Cmd.execute D (Cmd.undo C d).2.2).2.1] 2
        mh).can_redo = false ∧
    ((CommandManager.mk [A, B, (Cmd.execute D (Cmd.undo C d).2.2).2.1] 2
        mh).redo (Cmd.execute D (Cmd.undo C d).2.2).2.2).1 = false := by
  refine ⟨?_, ?_, ?_, ?_⟩
  · simp [CommandManager.undo, CommandManager.can_undo, hund]
  · have hno : ¬(3 > mh) := by omega
    simp [CommandManager.execute, hexe, hno]
  · simp [CommandManager.can_redo]
  · simp [CommandManager.redo, CommandManager.can_redo]

/-- Witness for the history-truncation law on the concrete fixtures. -/
theorem history_truncation_witness :
    3 ≤ 3 ∧ (Cmd.undo cmdC sampleDoc).1 = true ∧
    (Cmd.execute cmdD (Cmd.undo cmdC sampleDoc).2.2).1 = true ∧
    ((CommandManager.mk [cmdA, cmdB, cmdC] 2 3).undo sampleDoc
       = (true,
          CommandManager.mk [cmdA, cmdB, (Cmd.undo cmdC sampleDoc).2.1] 1 3,
          (Cmd.undo cmdC sampleDoc).2.2) ∧
     (CommandManager.mk [cmdA, cmdB, (Cmd.undo cmdC sampleDoc).2.1] 1
         3).execute cmdD (Cmd.undo cmdC sampleDoc).2.2
       = (true,
          CommandManager.mk
            [cmdA, cmdB,
             (Cmd.execute cmdD (Cmd.undo cmdC sampleDoc).2.2).2.1] 2 3,
          (Cmd.execute cmdD (Cmd.undo cmdC sampleDoc).2.2).2.1,
          (Cmd.execute cmdD (Cmd.undo cmdC sampleDoc).2.2).2.2) ∧
     (CommandManager.mk
         [cmdA, cmdB, (Cmd.execute cmdD (Cmd.undo cmdC sampleDoc).2.2).2.1]
         2 3).can_redo = false ∧
     ((CommandManager.mk
         [cmdA, cmdB, (Cmd.execute cmdD (Cmd.undo cmdC sampleDoc).2.2).2.1]
         2 3).redo
        (Cmd.execute cmdD (Cmd.undo cmdC sampleDoc).2.2).2.2).1 = false) :=
  ⟨by decide, by decide, by decide,
   history_truncation cmdA cmdB cmdC cmdD sampleDoc 3 (by decide)
     (by decide) (by decide)⟩

/-- C4 counterexample: with maximum history 2, after executing the three
fixture inserts the history holds 2 commands with the cursor at index 1,
exactly as the claim's premise describes; but after one successful undo
`can_undo` is still `true` — not `false` — and a second undo succeeds,
because eviction shifted the cursor so that both retained commands remain
undoable. -/
theorem bounded_history_undo_twice_counterexample :
    bhStep1.1 = true ∧ bhStep2.1 = true ∧ bhStep3.1 = true ∧
    bhStep3.2.1.history.length = 2 ∧ bhStep3.2.1.currentIndex = 1 ∧
    bhUndo1.1 = true ∧
    bhUndo1.2.1.can_undo = true ∧
    bhUndo2.1 = true ∧
    bhUndo2.2.1.can_undo = false := by decide

/-- Undoing any primitive command right after a successful execution of it
succeeds and restores the document content exactly: the command-level
inverse laws lifted to the dispatching `Cmd` type. -/
theorem Cmd.undo_restores_content (c c1 : Cmd) (d d1 : Document)
    (h : Cmd.execute c d = (true, c1, d1)) :
    (Cmd.undo c1 d1).1 = true ∧ (Cmd.undo c1 d1).2.2.content = d.content := by
  cases c with
  | insertCmd ic =>
    simp only [Cmd.execute, Prod.mk.injEq] at h
    obtain ⟨hr1, hc1, hd1⟩ := h
    subst hc1
    subst hd1
    by_cases hro : d.readOnly = true
    · exfalso
      have hins : Document.insert d ic.position ic.text true
          = (Except.error DocError.readOnlyError, d) := by
        simp [Document.insert, hro]
      simp [InsertCommand.execute, hins] at hr1
    · by_cases hpos : 0 ≤ ic.position
          ∧ ic.position ≤ (d.content.length : Int)
      · have hmain := insertCommand_undo_restores ic d (by simpa using hro)
          hpos.1 hpos.2
        exact ⟨by simpa [Cmd.undo] using hmain.2.1,
               by simpa [Cmd.undo] using hmain.2.2⟩
      · exfalso
        have hbad : ic.position < 0
            ∨ ic.position > (d.content.length : Int) := by omega
        have hins : Document.insert d ic.position ic.text true
            = (Except.error (DocError.invalidPosition ic.position), d) := by
          simp [Document.insert, hro, hbad]
        simp [InsertCommand.execute, hins] at hr1
  | deleteCmd dc =>
    simp only [Cmd.execute, Prod.mk.injEq] at h
    obtain ⟨hr1, hc1, hd1⟩ := h
    subst hc1
    subst hd1
    by_cases hrange : 0 ≤ dc.startPosition
        ∧ dc.startPosition ≤ dc.endPosition
        ∧ dc.endPosition ≤ (d.content.length : Int)
    · by_cases hro : d.readOnly = true
      · exfalso
        have hget := Document.get_text_ok d dc.startPosition dc.endPosition
          hrange.1 hrange.2.1 hrange.2.2
        have hdel : Document.delete d dc.startPosition dc.endPosition true
            = (Except.error DocError.readOnlyError, d) := by
          simp [Document.delete, hro]
        simp [DeleteCommand.execute, hget, hdel] at hr1
      · have hmain := deleteCommand_undo_restores dc d (by simpa using hro)
          hrange.1 hrange.2.1 hrange.2.2
        exact ⟨by simpa [Cmd.undo] using hmain.2.2.1,
               by simpa [Cmd.undo] using hmain.2.2.2⟩
    · exfalso
      have hbad : dc.startPosition < 0
          ∨ dc.endPosition > (d.content.length : Int)
          ∨ dc.startPosition > dc.endPosition := by omega
      have hget : Document.get_text d dc.startPosition dc.endPosition
          = Except.error
              (DocError.invalidRange dc.startPosition dc.endPosition) := by
        simp [Document.get_text, hbad]
      simp [DeleteCommand.execute, hget] at hr1

/-- C4 (amended): with maximum history 2, successfully executing three
commands `A, B, C` in sequence leaves the history `[B, C]` (as mutated by
execution, `A` evicted) with the cursor at `C` (index 1); from that state
`undo` succeeds twice, not once: the first undo hands the document to
`C`'s own undo, whose result restores the content to the post-`B` state,
and leaves `can_undo` still `true`; the second undo invokes `B`'s undo,
and only then does `can_undo` return `false`. -/
theorem bounded_history_two (A B C A1 B1 C1 : Cmd) (d dA dB dC : Document)
    (hA : Cmd.execute A d = (true, A1, dA))
    (hB : Cmd.execute B dA = (true, B1, dB))
    (hC : Cmd.execute C dB = (true, C1, dC))
    (hundC : (Cmd.undo C1 dC).1 = true)
    (hundB : (Cmd.undo B1 (Cmd.undo C1 dC).2.2).1 = true) :
    (CommandManager.new (some 2)).execute A d
      = (true, CommandManager.mk [A1] 0 2, A1, dA) ∧
    (CommandManager.mk [A1] 0 2).execute B dA
      = (true, CommandManager.mk [A1, B1] 1 2, B1, dB) ∧
    (CommandManager.mk [A1, B1] 1 2).execute C dB
      = (true, CommandManager.mk [B1, C1] 1 2, C1, dC) ∧
    (CommandManager.mk [B1, C1] 1 2).undo dC
      = (true, CommandManager.mk [B1, (Cmd.undo C1 dC).2.1] 0 2,
         (Cmd.undo C1 dC).2.2) ∧
    (Cmd.undo C1 dC).2.2.content = dB.content ∧
    (CommandManager.mk [B1, (Cmd.undo C1 dC).2.1] 0 2).can_undo = true ∧
    ((CommandManager.mk [B1, (Cmd.undo C1 dC).2.1] 0 2).undo
        (Cmd.undo C1 dC).2.2).1 = true ∧
    ((CommandManager.mk [B1, (Cmd.undo C1 dC).2.1] 0 2).undo
        (Cmd.undo C1 dC).2.2).2.1.currentIndex = -1 ∧
    ((CommandManager.mk [B1, (Cmd.undo C1 dC).2.1] 0 2).undo
        (Cmd.undo C1 dC).2.2).2.1.can_undo = false := by
  refine ⟨?_, ?_, ?_, ?_, ?_, ?_, ?_, ?_, ?_⟩
  · simp [CommandManager.new, CommandManager.execute, hA]
  · simp [CommandManager.execute, hB]
  · simp [CommandManager.execute, hC]
  · simp [CommandManager.undo, CommandManager.can_undo, hundC]
  · exact (Cmd.undo_restores_content C C1 dB dC hC).2
  · simp [CommandManager.can_undo]
  · simp [CommandManager.undo, CommandManager.can_undo, hundB]
  · simp [CommandManager.undo, CommandManager.can_undo, hundB]
  · simp [CommandManager.undo, CommandManager.can_undo, hundB]

/-- Witness for the amended bounded-history law on the concrete
fixtures. -/
theorem bounded_history_two_witness :
    Cmd.execute cmdA docE = (true, eA.2.1, eA.2.2) ∧
    Cmd.execute cmdB eA.2.2 = (true, eB.2.1, eB.2.2) ∧
    Cmd.execute cmdC eB.2.2 = (true, eC.2.1, eC.2.2) ∧
    (Cmd.undo eC.2.1 eC.2.2).1 = true ∧
    (Cmd.undo eB.2.1 (Cmd.undo eC.2.1 eC.2.2).2.2).1 = true ∧
    ((CommandManager.new (some 2)).execute cmdA docE
       = (true, CommandManager.mk [eA.2.1] 0 2, eA.2.1, eA.2.2) ∧
     (CommandManager.mk [eA.2.1] 0 2).execute cmdB eA.2.2
       = (true, CommandManager.mk [eA.2.1, eB.2.1] 1 2, eB.2.1, eB.2.2) ∧
     (CommandManager.mk [eA.2.1, eB.2.1] 1 2).execute cmdC eB.2.2
       = (true, CommandManager.mk [eB.2.1, eC.2.1] 1 2, eC.2.1, eC.2.2) ∧
     (CommandManager.mk [eB.2.1, eC.2.1] 1 2).undo eC.2.2
       = (true,
          CommandManager.mk [eB.2.1, (Cmd.undo eC.2.1 eC.2.2).2.1] 0 2,
          (Cmd.undo eC.2.1 eC.2.2).2.2) ∧
     (Cmd.undo eC.2.1 eC.2.2).2.2.content = eB.2.2.content ∧
     (CommandManager.mk [eB.2.1, (Cmd.undo eC.2.1 eC.2.2).2.1] 0
         2).can_undo = true ∧
     ((CommandManager.mk [eB.2.1, (Cmd.undo eC.2.1 eC.2.2).2.1] 0 2).undo
         (Cmd.undo eC.2.1 eC.2.2).2.2).1 = true ∧
     ((CommandManager.mk [eB.2.1, (Cmd.undo eC.2.1 eC.2.2).2.1] 0 2).undo
         (Cmd.undo eC.2.1 eC.2.2).2.2).2.1.currentIndex = -1 ∧
     ((CommandManager.mk [eB.2.1, (Cmd.undo eC.2.1 eC.2.2).2.1] 0 2).undo
         (Cmd.undo eC.2.1 eC.2.2).2.2).2.1.can_undo = false) :=
  ⟨by decide, by decide, by decide, by decide, by decide,
   bounded_history_two cmdA cmdB cmdC eA.2.1 eB.2.1 eC.2.1 docE eA.2.2
     eB.2.2 eC.2.2 (by decide) (by decide) (by decide) (by decide)
     (by decide)⟩
